import Mathlib

/-!
Verification of the periodic log emitter in `src/app.py`.

The program configures the process-wide logging facility once
(`logging.basicConfig` with a destination file, level `INFO` and a
JSON-shaped format string) and then loops forever: one `logging.debug`
call (suppressed by the `INFO` threshold), one `logging.warning` call
(emitted), and `time.sleep(3)`.

The embedding models the observable state of one run: the wall clock
(`now`, in seconds), the process-wide logging configuration, the list of
log records whose emission was attempted, and the list of records
actually written to the destination file.  `sleep d jit` advances the
clock by `d` plus a non-negative oversleep `jit` (the sleeping primitive
blocks for at least the requested duration); all other operations take
no model time.  A run is parameterised by the initial clock value and by
the per-cycle oversleep function.
-/

namespace App3

/-- Numeric severity level `logging.DEBUG` of the logging facility. -/
def DEBUG : Nat := 10

/-- Numeric severity level `logging.INFO` of the logging facility. -/
def INFO : Nat := 20

/-- Numeric severity level `logging.WARNING` of the logging facility. -/
def WARNING : Nat := 30

/-- Numeric severity level `logging.ERROR` of the logging facility. -/
def ERROR : Nat := 40

/-- Numeric severity level `logging.CRITICAL` of the logging facility. -/
def CRITICAL : Nat := 50

/-- The textual name of a numeric severity level (`logging.getLevelName`). -/
def levelName (n : Nat) : String :=
  if n = CRITICAL then "CRITICAL"
  else if n = ERROR then "ERROR"
  else if n = WARNING then "WARNING"
  else if n = INFO then "INFO"
  else if n = DEBUG then "DEBUG"
  else "Level " ++ toString n

/-- The process-wide logging configuration installed by `logging.basicConfig`:
destination file name, minimum severity level, and format template. -/
structure Config where
  filename : String
  level : Nat
  format : String
deriving DecidableEq

/-- The configuration installed by the `logging.basicConfig` call in
`src/app.py` lines 4-6: file `/tmp/app-logs/app3.log`, level `INFO`, and the
JSON-shaped percent-format template. -/
def basicConfig : Config :=
  { filename := "/tmp/app-logs/app3.log"
    level := INFO
    format := "\x7b\"timestamp\": \"%(asctime)s\", \"level\": \"%(levelname)s\", \"message\": \"%(message)s\"\x7d" }

/-- One log record: capture time (seconds), numeric severity, message text. -/
structure Record where
  t : Nat
  levelno : Nat
  msg : String
deriving DecidableEq

/-- One-pass percent-substitution of the fixed format template of
`basicConfig`: the three conversion specifiers `%(asctime)s`,
`%(levelname)s` and `%(message)s` are replaced (in a single pass, values
inserted verbatim with no escaping) by the record's formatted capture
time, level name and message. -/
def render (asctime levelname message : String) : String :=
  "\x7b\"timestamp\": \"" ++ asctime ++ "\", \"level\": \"" ++ levelname
    ++ "\", \"message\": \"" ++ message ++ "\"\x7d"

/-- The destination-file line produced for a record, given a rendering
`tsR` of clock values to `asctime` strings. -/
def renderRecord (tsR : Nat → String) (r : Record) : String :=
  render (tsR r.t) (levelName r.levelno) r.msg

/-- Observable state of a run: wall clock, process-wide configuration,
records whose emission was attempted, records written to the file. -/
structure LogState where
  now : Nat
  config : Config
  attempted : List Record
  file : List Record
deriving DecidableEq

/-- State right after `logging.basicConfig` and before the loop:
clock at `t0`, configuration installed, no records yet. -/
def initState (t0 : Nat) : LogState :=
  { now := t0, config := basicConfig, attempted := [], file := [] }

/-- A call to the logging facility at severity `lvl`: the record is
always attempted; it is appended to the destination file exactly when
its severity reaches the configured threshold (`record.levelno >=
logger.level` in the library's severity filter). -/
def logCall (lvl : Nat) (msg : String) (s : LogState) : LogState :=
  { s with
    attempted := s.attempted ++ [⟨s.now, lvl, msg⟩]
    file := if s.config.level ≤ lvl then s.file ++ [⟨s.now, lvl, msg⟩] else s.file }

/-- `logging.debug msg`. -/
def debug (msg : String) (s : LogState) : LogState := logCall DEBUG msg s

/-- `logging.warning msg`. -/
def warning (msg : String) (s : LogState) : LogState := logCall WARNING msg s

/-- `time.sleep d`: blocks for at least `d` seconds; `jit` is the
non-negative oversleep (scheduling delay) of this particular call. -/
def sleep (d jit : Nat) (s : LogState) : LogState := { s with now := s.now + d + jit }

/-- The message literal of the `logging.debug` call (line 9). -/
def debugMsg : String := "This is an info log from app3"

/-- The message literal of the `logging.warning` call (line 10). -/
def warnMsg : String := "This is an warn log from app3"

/-- The loop guard of `while True`: constantly true, in every state. -/
def loopGuard (_ : LogState) : Bool := true

/-- One cycle of the loop body (lines 9-11): the debug attempt, the
warning emission, then `time.sleep 3` with this cycle's oversleep `jit`. -/
def loopBody (jit : Nat) (s : LogState) : LogState :=
  sleep 3 jit (warning warnMsg (debug debugMsg s))

/-- The state after `n` complete cycles of the loop, starting from the
clock value `t0`, where cycle `k` oversleeps by `jit k`. -/
def run (jit : Nat → Nat) (t0 : Nat) : Nat → LogState
  | 0 => initState t0
  | n + 1 => loopBody (jit n) (run jit t0 n)

/-- The clock value at which cycle `k`'s records are captured. -/
def emitTime (jit : Nat → Nat) (t0 : Nat) : Nat → Nat
  | 0 => t0
  | n + 1 => emitTime jit t0 n + 3 + jit n

/-- Modelled from the spec: the eager open of the destination file that
`logging.basicConfig` performs at startup is library behaviour not in
`src/`; per the spec it fails fatally (unrecoverable startup error, no
retry, no fallback destination) when the destination directory is
missing or not writable, and succeeds otherwise. -/
def startup (dirExists writable : Bool) : Except String Config :=
  if dirExists && writable then Except.ok basicConfig
  else Except.error "cannot open /tmp/app-logs/app3.log"

/-- Modelled from the spec: the observable outcome of the whole process
after `n` cycles — either the startup error (and then no output lines at
all, for every `n`), or the destination file contents. -/
def programRun (dirExists writable : Bool) (jit : Nat → Nat) (t0 n : Nat) :
    Except String (List Record) :=
  match startup dirExists writable with
  | Except.error e => Except.error e
  | Except.ok _ => Except.ok (run jit t0 n).file

/-- A character that may stand unescaped inside a strict JSON string
literal: not the quote, not the backslash, and not a control character. -/
def isPlainChar (c : Char) : Bool :=
  c != '"' && c != '\\' && decide (32 ≤ c.toNat)

/-- Reads the body of a JSON string literal (the part following the
opening quote) made of plain characters only, up to the closing quote;
returns the content and the remaining input.  It accepts exactly the
escape-free strict JSON string bodies, so acceptance implies strict-JSON
validity of the literal. -/
def strContent : List Char → Option (List Char × List Char)
  | [] => none
  | c :: cs =>
    if c = '"' then some ([], cs)
    else if isPlainChar c then
      match strContent cs with
      | some (content, rest) => some (c :: content, rest)
      | none => none
    else none

/-- Drops leading JSON whitespace. -/
def skipWs (l : List Char) : List Char :=
  l.dropWhile (fun c => c = ' ' || c = '\t' || c = '\n' || c = '\r')

/-- Reads one `"key": "value"` member of a JSON object (both the key and
the value must be escape-free string literals); returns the remaining
input after the value. -/
def parseMember (l : List Char) : Option (List Char) :=
  match skipWs l with
  | '"' :: cs =>
    match strContent cs with
    | some (_, r1) =>
      match skipWs r1 with
      | ':' :: r2 =>
        match skipWs r2 with
        | '"' :: r3 =>
          match strContent r3 with
          | some (_, r4) => some r4
          | none => none
        | _ => none
      | _ => none
    | none => none
  | _ => none

/-- Reads the members of a JSON object after the opening brace, one
`parseMember` per comma-separated member, up to the closing brace; the
fuel bounds the number of members. -/
def parseMembers : Nat → List Char → Option (List Char)
  | 0, _ => none
  | fuel + 1, l =>
    match parseMember l with
    | none => none
    | some r =>
      match skipWs r with
      | [] => none
      | c :: r2 =>
        if c = '\x7d' then some r2
        else if c = ',' then parseMembers fuel r2
        else none

/-- Recognizer for a line that is one strict JSON object whose keys and
values are escape-free string literals: acceptance implies that the line
parses as a strict JSON object. -/
def isJsonObjectLine (s : String) : Bool :=
  match skipWs s.data with
  | c :: r =>
    if c = '\x7b' then
      match parseMembers (r.length + 1) r with
      | some rest => (skipWs rest).isEmpty
      | none => false
    else false
  | [] => false

theorem run_config (jit : Nat → Nat) (t0 n : Nat) :
    (run jit t0 n).config = basicConfig := by
  induction n with
  | zero => rfl
  | succ n ih => simp [run, loopBody, sleep, warning, debug, logCall, ih]

theorem run_now (jit : Nat → Nat) (t0 n : Nat) :
    (run jit t0 n).now = emitTime jit t0 n := by
  induction n with
  | zero => rfl
  | succ n ih => simp [run, loopBody, sleep, warning, debug, logCall, emitTime, ih]

theorem run_file (jit : Nat → Nat) (t0 n : Nat) :
    (run jit t0 n).file =
      (List.range n).map (fun k => ⟨emitTime jit t0 k, WARNING, warnMsg⟩) := by
  induction n with
  | zero => rfl
  | succ n ih =>
    simp [run, loopBody, sleep, warning, debug, logCall, run_config, run_now,
      List.range_succ, ih, INFO, DEBUG, WARNING, basicConfig]

theorem run_attempted (jit : Nat → Nat) (t0 n : Nat) :
    (run jit t0 n).attempted =
      (List.range n).flatMap (fun k =>
        [⟨emitTime jit t0 k, DEBUG, debugMsg⟩, ⟨emitTime jit t0 k, WARNING, warnMsg⟩]) := by
  induction n with
  | zero => rfl
  | succ n ih =>
    simp [run, loopBody, sleep, warning, debug, logCall, run_now,
      List.range_succ, ih]

theorem emitTime_le_emitTime (jit : Nat → Nat) (t0 : Nat) :
    ∀ k m : Nat, k ≤ m → emitTime jit t0 k ≤ emitTime jit t0 m := by
  intro k m h
  induction m with
  | zero => simp_all
  | succ m ih =>
    rcases Nat.lt_or_ge k (m + 1) with h1 | h1
    · calc emitTime jit t0 k ≤ emitTime jit t0 m := ih (Nat.lt_succ_iff.mp h1)
        _ ≤ emitTime jit t0 (m + 1) := by simp [emitTime]; omega
    · have : k = m + 1 := le_antisymm h h1
      simp [this]

theorem strContent_append (content rest : List Char)
    (h : content.all isPlainChar = true) :
    strContent (content ++ '"' :: rest) = some (content, rest) := by
  induction content with
  | nil => simp [strContent]
  | cons c cs ih =>
    simp only [List.all_cons, Bool.and_eq_true] at h
    have hc : ¬ (c = '"') := by
      intro hcq
      subst hcq
      simp [isPlainChar] at h
    simp [strContent, hc, h.1, ih h.2]

theorem parseMember_key (key : List Char) (hk : key.all isPlainChar = true)
    (val : List Char) (hv : val.all isPlainChar = true) (rest : List Char) :
    parseMember ('"' :: (key ++ '"' :: ':' :: ' ' :: '"' :: (val ++ '"' :: rest))) =
      some rest := by
  have h1 := strContent_append key (':' :: ' ' :: '"' :: (val ++ '"' :: rest)) hk
  have h2 := strContent_append val rest hv
  simp [parseMember, skipWs, h1, h2]

theorem parseMembers_cont (f : Nat) (key : List Char) (hk : key.all isPlainChar = true)
    (val : List Char) (hv : val.all isPlainChar = true) (rest : List Char) :
    parseMembers (f + 1)
        ('"' :: (key ++ '"' :: ':' :: ' ' :: '"' :: (val ++ '"' :: ',' :: rest))) =
      parseMembers f rest := by
  have h := parseMember_key key hk val hv (',' :: rest)
  simp [parseMembers, h, skipWs]

theorem parseMembers_last (f : Nat) (key : List Char) (hk : key.all isPlainChar = true)
    (val : List Char) (hv : val.all isPlainChar = true) :
    parseMembers (f + 1)
        ('"' :: (key ++ '"' :: ':' :: ' ' :: '"' :: (val ++ ['"', '\x7d']))) =
      some [] := by
  have h := parseMember_key key hk val hv ['\x7d']
  simp [parseMembers, h, skipWs]

theorem parseMembers_ws (f : Nat) (l : List Char) :
    parseMembers (f + 1) (' ' :: l) = parseMembers (f + 1) l := rfl

theorem parseMembers_mono : ∀ f g l rest, f ≤ g →
    parseMembers f l = some rest → parseMembers g l = some rest := by
  intro f
  induction f with
  | zero => intro g l rest _ h; simp [parseMembers] at h
  | succ f ih =>
    intro g l rest hg h
    obtain ⟨g2, rfl⟩ : ∃ g2, g = g2 + 1 := ⟨g - 1, by omega⟩
    rw [parseMembers] at h ⊢
    cases hpm : parseMember l with
    | none => rw [hpm] at h; simp at h
    | some r =>
      rw [hpm] at h
      dsimp only at h ⊢
      cases hsw : skipWs r with
      | nil => rw [hsw] at h; simp at h
      | cons c r2 =>
        rw [hsw] at h
        dsimp only at h ⊢
        by_cases hc : c = '\x7d'
        · simp only [hc, if_pos rfl] at h ⊢
          exact h
        · by_cases hc2 : c = ','
          · simp only [hc, hc2, if_neg, if_pos rfl, reduceIte] at h ⊢
            exact ih g2 r2 rest (by omega) h
          · simp [hc, hc2] at h

theorem data_append (s t : String) : (s ++ t).data = s.data ++ t.data := rfl

theorem isJsonObjectLine_open (s : String) (r : List Char) (hd : s.data = '\x7b' :: r) :
    isJsonObjectLine s =
      (match parseMembers (r.length + 1) r with
       | some rest => (skipWs rest).isEmpty
       | none => false) := by
  unfold isJsonObjectLine
  rw [hd]
  rfl

theorem parseMembers_appLine3 (a m : List Char)
    (h1 : a.all isPlainChar = true) (h2 : m.all isPlainChar = true) :
    parseMembers 3 ('"' :: (['t','i','m','e','s','t','a','m','p'] ++ '"' :: ':' :: ' ' :: '"' ::
      (a ++ '"' :: ',' :: ' ' :: '"' :: (['l','e','v','e','l'] ++ '"' :: ':' :: ' ' :: '"' ::
      (['W','A','R','N','I','N','G'] ++ '"' :: ',' :: ' ' :: '"' ::
      (['m','e','s','s','a','g','e'] ++ '"' :: ':' :: ' ' :: '"' ::
      (m ++ ['"', '\x7d']))))))) = some [] := by
  show parseMembers (2 + 1) _ = some []
  rw [parseMembers_cont 2 ['t','i','m','e','s','t','a','m','p'] (by decide) a h1]
  show parseMembers (1 + 1) (' ' :: _) = some []
  rw [parseMembers_ws 1]
  rw [parseMembers_cont 1 ['l','e','v','e','l'] (by decide) ['W','A','R','N','I','N','G'] (by decide)]
  show parseMembers (0 + 1) (' ' :: _) = some []
  rw [parseMembers_ws 0]
  exact parseMembers_last 0 ['m','e','s','s','a','g','e'] (by decide) m h2

theorem isJsonObjectLine_render (a m : String)
    (h1 : a.data.all isPlainChar = true) (h2 : m.data.all isPlainChar = true) :
    isJsonObjectLine (render a "WARNING" m) = true := by
  have d1 : ("\x7b\"timestamp\": \"").data
      = ['\x7b', '"', 't', 'i', 'm', 'e', 's', 't', 'a', 'm', 'p', '"', ':', ' ', '"'] := rfl
  have d2 : ("\", \"level\": \"").data
      = ['"', ',', ' ', '"', 'l', 'e', 'v', 'e', 'l', '"', ':', ' ', '"'] := rfl
  have d3 : ("WARNING" : String).data = ['W', 'A', 'R', 'N', 'I', 'N', 'G'] := rfl
  have d4 : ("\", \"message\": \"").data
      = ['"', ',', ' ', '"', 'm', 'e', 's', 's', 'a', 'g', 'e', '"', ':', ' ', '"'] := rfl
  have d5 : ("\"\x7d" : String).data = ['"', '\x7d'] := rfl
  have hdata : (render a "WARNING" m).data =
      '\x7b' :: '"' :: (['t','i','m','e','s','t','a','m','p'] ++ '"' :: ':' :: ' ' :: '"' ::
        (a.data ++ '"' :: ',' :: ' ' :: '"' :: (['l','e','v','e','l'] ++ '"' :: ':' :: ' ' :: '"' ::
        (['W','A','R','N','I','N','G'] ++ '"' :: ',' :: ' ' :: '"' ::
        (['m','e','s','s','a','g','e'] ++ '"' :: ':' :: ' ' :: '"' ::
        (m.data ++ ['"', '\x7d'])))))) := by
    simp [render, data_append, d1, d2, d3, d4, d5, List.append_assoc]
  rw [isJsonObjectLine_open _ _ hdata]
  have happ := parseMembers_appLine3 a.data m.data h1 h2
  have hfuel : 3 ≤ ('"' :: (['t','i','m','e','s','t','a','m','p'] ++ '"' :: ':' :: ' ' :: '"' ::
      (a.data ++ '"' :: ',' :: ' ' :: '"' :: (['l','e','v','e','l'] ++ '"' :: ':' :: ' ' :: '"' ::
      (['W','A','R','N','I','N','G'] ++ '"' :: ',' :: ' ' :: '"' ::
      (['m','e','s','s','a','g','e'] ++ '"' :: ':' :: ' ' :: '"' ::
      (m.data ++ ['"', '\x7d']))))))).length + 1 := by
    simp [List.length_append]
  have hmono := parseMembers_mono 3 _ _ _ hfuel happ
  rw [hmono]
  rfl

/-- Claim C1: every cycle attempts exactly one DEBUG record (with the
debug message literal), DEBUG is numerically below the configured INFO
threshold, and no DEBUG record is ever written to the destination file. -/
theorem claim_C1 (jit : Nat → Nat) (t0 n : Nat) :
    ((run jit t0 n).attempted.countP (fun r => r.levelno == DEBUG)) = n ∧
    DEBUG < basicConfig.level ∧ basicConfig.level = INFO ∧
    ((run jit t0 n).file.countP (fun r => r.levelno == DEBUG)) = 0 := by
  refine ⟨?_, by simp [DEBUG, INFO, basicConfig], rfl, ?_⟩
  · induction n with
    | zero => rfl
    | succ n ih =>
      simp only [DEBUG] at ih
      simp [run, loopBody, sleep, warning, debug, logCall, List.countP_append,
        DEBUG, WARNING, ih]
  · simp [run_file, List.countP_map, Function.comp_def, WARNING, DEBUG]

/-- Claim C2: after `n` cycles the destination file holds exactly `n`
WARNING-severity lines, and every line (under any timestamp rendering)
contains the literal message "This is an warn log from app3". -/
theorem claim_C2 (jit : Nat → Nat) (t0 n : Nat) :
    ((run jit t0 n).file.countP (fun r => r.levelno == WARNING)) = n ∧
    ∀ r ∈ (run jit t0 n).file, r.msg = warnMsg ∧
      ∀ tsR : Nat → String, ∃ pre post, renderRecord tsR r = pre ++ warnMsg ++ post := by
  constructor
  · simp [run_file, List.countP_map, Function.comp_def]
  · intro r hr
    rw [run_file] at hr
    obtain ⟨k, _, rfl⟩ := List.mem_map.mp hr
    refine ⟨rfl, fun tsR => ?_⟩
    refine ⟨"\x7b\"timestamp\": \"" ++ tsR (emitTime jit t0 k) ++ "\", \"level\": \""
      ++ levelName WARNING ++ "\", \"message\": \"", "\"\x7d", ?_⟩
    simp [renderRecord, render, levelName, WARNING, CRITICAL, ERROR, String.append_assoc]

/-- Claim C3: every line emitted to the destination file matches the
JSON-shaped template, and its level field is always the string
"WARNING". -/
theorem claim_C3 (jit : Nat → Nat) (t0 n : Nat) (tsR : Nat → String) :
    ∀ r ∈ (run jit t0 n).file,
      levelName r.levelno = "WARNING" ∧
      renderRecord tsR r =
        "\x7b\"timestamp\": \"" ++ tsR r.t ++ "\", \"level\": \"" ++ "WARNING"
          ++ "\", \"message\": \"" ++ r.msg ++ "\"\x7d" := by
  intro r hr
  rw [run_file] at hr
  obtain ⟨k, _, rfl⟩ := List.mem_map.mp hr
  constructor
  · simp [levelName, WARNING, CRITICAL, ERROR]
  · simp [renderRecord, render, levelName, WARNING, CRITICAL, ERROR, String.append_assoc]

theorem claim_C3_witness :
    levelName (Record.mk 0 WARNING warnMsg).levelno = "WARNING" ∧
    renderRecord (fun t => toString t) (Record.mk 0 WARNING warnMsg) =
      "\x7b\"timestamp\": \"" ++ (fun t : Nat => toString t) (Record.mk 0 WARNING warnMsg).t
        ++ "\", \"level\": \"" ++ "WARNING" ++ "\", \"message\": \""
        ++ (Record.mk 0 WARNING warnMsg).msg ++ "\"\x7d" :=
  claim_C3 (fun _ => 0) 0 1 (fun t => toString t) (Record.mk 0 WARNING warnMsg) (by decide)

/-- Claim C4: after `n` complete cycles the file holds exactly `n`
lines, all at WARNING severity, with non-decreasing capture times, and
the file is append-only: its contents after `n` cycles are a prefix of
its contents after `n + 1` cycles. -/
theorem claim_C4 (jit : Nat → Nat) (t0 n : Nat) :
    (run jit t0 n).file.length = n ∧
    (∀ r ∈ (run jit t0 n).file, r.levelno = WARNING) ∧
    (run jit t0 n).file.Pairwise (fun a b => a.t ≤ b.t) ∧
    (run jit t0 n).file <+: (run jit t0 (n + 1)).file := by
  refine ⟨by simp [run_file], ?_, ?_, ?_⟩
  · intro r hr
    rw [run_file] at hr
    obtain ⟨k, _, rfl⟩ := List.mem_map.mp hr
    rfl
  · rw [run_file]
    exact List.Pairwise.map _
      (fun a b h => emitTime_le_emitTime jit t0 a b (Nat.le_of_lt h))
      (List.pairwise_lt_range n)
  · rw [run_file, run_file, List.range_succ, List.map_append]
    exact ⟨_, rfl⟩

/-- Claim C5: when the destination directory is missing or not
writable, the process fails at startup with the startup error, before
any cycle: for every cycle count the outcome is the same error and no
output lines are ever produced (no retry, no fallback destination). -/
theorem claim_C5 (dirExists writable : Bool)
    (h : dirExists = false ∨ writable = false) (jit : Nat → Nat) (t0 n : Nat) :
    programRun dirExists writable jit t0 n =
      Except.error "cannot open /tmp/app-logs/app3.log" := by
  rcases h with h | h <;> simp [programRun, startup, h]

theorem claim_C5_witness :
    programRun false true (fun _ => 0) 0 5 =
      Except.error "cannot open /tmp/app-logs/app3.log" :=
  claim_C5 false true (Or.inl rfl) (fun _ => 0) 0 5

/-- Claim C6: the loop guard of `while True` is true in every reachable
state, and after any number of completed cycles the program takes one
more cycle, attempting two further records: it never terminates of its
own accord. -/
theorem claim_C6 (jit : Nat → Nat) (t0 n : Nat) :
    loopGuard (run jit t0 n) = true ∧
    run jit t0 (n + 1) = loopBody (jit n) (run jit t0 n) ∧
    (run jit t0 (n + 1)).attempted.length = (run jit t0 n).attempted.length + 2 := by
  refine ⟨rfl, rfl, ?_⟩
  simp [run, loopBody, sleep, warning, debug, logCall]

/-- Claim C7: the capture times of any two consecutive lines of the
destination file are at least 3 seconds apart, because each cycle ends
with a blocking sleep of 3 seconds. -/
theorem claim_C7 (jit : Nat → Nat) (t0 n i : Nat)
    (h : i + 1 < (run jit t0 n).file.length) :
    ((run jit t0 n).file.get ⟨i, Nat.lt_of_succ_lt h⟩).t + 3 ≤
      ((run jit t0 n).file.get ⟨i + 1, h⟩).t := by
  have hlen : (run jit t0 n).file.length = n := by simp [run_file]
  have hi1 : i + 1 < n := hlen ▸ h
  have hi : i < n := Nat.lt_of_succ_lt hi1
  have g1 : ((run jit t0 n).file.get ⟨i, Nat.lt_of_succ_lt h⟩) =
      ⟨emitTime jit t0 i, WARNING, warnMsg⟩ := by
    simp [List.get_eq_getElem, run_file, List.getElem_map, List.getElem_range]
  have g2 : ((run jit t0 n).file.get ⟨i + 1, h⟩) =
      ⟨emitTime jit t0 (i + 1), WARNING, warnMsg⟩ := by
    simp [List.get_eq_getElem, run_file, List.getElem_map, List.getElem_range]
  rw [g1, g2]
  simp [emitTime]

theorem claim_C7_witness :
    ((run (fun _ => 1) 0 2).file.get ⟨0, by decide⟩).t + 3 ≤
      ((run (fun _ => 1) 0 2).file.get ⟨1, by decide⟩).t :=
  claim_C7 (fun _ => 1) 0 2 0 (by decide)

/-- Claim C8: the logging configuration — destination path, INFO
threshold, format template — is the one installed before the loop and is
identical at every cycle; no loop operation mutates it. -/
theorem claim_C8 (jit : Nat → Nat) (t0 n : Nat) :
    (run jit t0 n).config = (initState t0).config ∧
    (run jit t0 n).config = basicConfig ∧
    basicConfig.filename = "/tmp/app-logs/app3.log" ∧
    basicConfig.level = INFO := by
  exact ⟨run_config jit t0 n, run_config jit t0 n, rfl, rfl⟩

/-- Claim C10: the output is deterministic in the clock — two runs
whose emission-time sequences agree produce identical line sequences —
and every emitted record carries the same fixed level and message, so
lines differ only in their timestamp field. -/
theorem claim_C10 (jit1 jit2 : Nat → Nat) (t01 t02 n : Nat)
    (h : ∀ k, k < n → emitTime jit1 t01 k = emitTime jit2 t02 k) (tsR : Nat → String) :
    (run jit1 t01 n).file.map (renderRecord tsR) =
      (run jit2 t02 n).file.map (renderRecord tsR) ∧
    ∀ r ∈ (run jit1 t01 n).file, r.levelno = WARNING ∧ r.msg = warnMsg := by
  constructor
  · rw [run_file, run_file, List.map_map, List.map_map]
    refine List.map_congr_left ?_
    intro k hk
    simp [Function.comp, renderRecord, h k (List.mem_range.mp hk)]
  · intro r hr
    rw [run_file] at hr
    obtain ⟨k, _, rfl⟩ := List.mem_map.mp hr
    exact ⟨rfl, rfl⟩

theorem claim_C10_witness :
    (run (fun _ => 0) 7 2).file.map (renderRecord (fun t => toString t)) =
      (run (fun k => if k = 0 then 0 else 5) 7 2).file.map
        (renderRecord (fun t => toString t)) :=
  (claim_C10 (fun _ => 0) (fun k => if k = 0 then 0 else 5) 7 7 2
    (by intro k hk; interval_cases k <;> rfl) (fun t => toString t)).1

/-- Claim C9: every line the program emits parses as a strict JSON
object: whenever the timestamp rendering produces only plain characters
(no quote, no backslash, no control character — as the asctime format's
digits, separators and comma do), every line of the destination file is
accepted by the strict-JSON object recognizer, because the level and
message texts substituted into the template are fixed literals with no
quote and no newline. -/
theorem claim_C9 (jit : Nat → Nat) (t0 n : Nat) (tsR : Nat → String)
    (hts : ∀ t, (tsR t).data.all isPlainChar = true) :
    ∀ r ∈ (run jit t0 n).file, isJsonObjectLine (renderRecord tsR r) = true := by
  intro r hr
  rw [run_file] at hr
  obtain ⟨k, _, rfl⟩ := List.mem_map.mp hr
  have hlvl : renderRecord tsR ⟨emitTime jit t0 k, WARNING, warnMsg⟩ =
      render (tsR (emitTime jit t0 k)) "WARNING" warnMsg := by
    simp [renderRecord, levelName, WARNING, CRITICAL, ERROR]
  rw [hlvl]
  exact isJsonObjectLine_render (tsR (emitTime jit t0 k)) warnMsg (hts _) (by decide)

theorem claim_C9_witness :
    isJsonObjectLine (renderRecord (fun _ => "2026-01-01 12:00:00,123")
      (Record.mk 0 WARNING warnMsg)) = true :=
  claim_C9 (fun _ => 0) 0 1 (fun _ => "2026-01-01 12:00:00,123")
    (fun _ => rfl) (Record.mk 0 WARNING warnMsg) (by decide)

end App3
